import Mathlib

/-!
Verification of the binance-data-downloader acquisition-and-normalization
pipeline.  Python strings are modelled as lists of character codes
(`List Nat`); each definition below is a direct shallow embedding of the
corresponding function or inline block in the repository sources
(`src/bn_downloader/main.py`, `src/bn_downloader/converter.py`,
`src/bn_converter/conv.py`, `src/converter.py`).
-/

/-- Character codes of a string literal, used to write concrete inputs. -/
def strL (s : String) : List Nat := s.toList.map Char.toNat

/-- Python `c.islower()` restricted to ASCII: code in `[97, 122]`. -/
def pyIsLowerN (c : Nat) : Bool := 97 ≤ c && c ≤ 122

/-- Python `c.isupper()` restricted to ASCII: code in `[65, 90]`. -/
def pyIsUpperN (c : Nat) : Bool := 65 ≤ c && c ≤ 90

/-- ASCII uppercasing of one character, as Python `str.upper` does per char. -/
def pyToUpperN (c : Nat) : Nat := if pyIsLowerN c then c - 32 else c

/-- ASCII lowercasing of one character, as Python `str.lower` does per char. -/
def pyToLowerN (c : Nat) : Nat := if pyIsUpperN c then c + 32 else c

/-- Python `str.capitalize()`: first character uppercased, the rest lowercased. -/
def pyCapitalize : List Nat → List Nat
  | [] => []
  | c :: cs => pyToUpperN c :: cs.map pyToLowerN

/-- Split a string at every character satisfying `p`, keeping empty pieces,
matching Python `str.split(sep)` when `p` tests equality with `sep`. -/
def pySplitIf (p : Nat → Bool) : List Nat → List (List Nat)
  | [] => [[]]
  | c :: cs =>
    match pySplitIf p cs with
    | [] => [[c]]
    | w :: ws => if p c then [] :: w :: ws else (c :: w) :: ws

/-- Python `s.split(sep)` for a one-character separator. -/
def pySplitOnSep (sep : Nat) : List Nat → List (List Nat) :=
  pySplitIf (fun c => c = sep)

/-- Python `"sep".join(ws)` for a one-character separator. -/
def pyJoin (sep : Nat) : List (List Nat) → List Nat
  | [] => []
  | [w] => w
  | w :: ws => w ++ sep :: pyJoin sep ws

/-- Python whitespace test used by argument-less `str.split()`:
space, tab, newline, carriage return, vertical tab, form feed. -/
def pyIsSpaceN (c : Nat) : Bool := c = 32 || (9 ≤ c && c ≤ 13)

/-- Python `s.split()`: whitespace-delimited tokens, empty pieces dropped. -/
def pySplitWs (s : List Nat) : List (List Nat) :=
  (pySplitIf pyIsSpaceN s).filter (fun w => decide (w ≠ []))

/-- Python `c.isdigit()` for one ASCII character: code in `[48, 57]`. -/
def pyIsDigitN (c : Nat) : Bool := 48 ≤ c && c ≤ 57

/-- Python `s.isdigit()` restricted to ASCII: nonempty and all digits. -/
def pyIsDigits (s : List Nat) : Bool := !s.isEmpty && s.all pyIsDigitN

/-- Python `x.replace(".", "", 1)`: drop the first `'.'` (code 46), if any. -/
def removeFirstDot : List Nat → List Nat
  | [] => []
  | c :: cs => if c = 46 then cs else c :: removeFirstDot cs

/-- The sample test in `bn_converter/conv.py` line 178:
`x.replace(".", "", 1).isdigit()` — a plain decimal numeral with at most
one `'.'`. -/
def isPlainNumeral (s : List Nat) : Bool := pyIsDigits (removeFirstDot s)

/-- Fraction length from `bn_converter/conv.py` line 182:
`len(x.split(".")[-1]) if "." in x else 0`. -/
def fracDigits (s : List Nat) : Nat :=
  if s.contains 46 then ((pySplitOnSep 46 s).getLastD []).length else 0

/-- The decimal-scale guess of `bn_converter/conv.py` lines 176-197 for a
text column, given the bounded sample (first 10 non-null values).
`some n` means the column is cast to `Decimal(scale = n)`; `none` means no
cast is applied: either the sample is not all plain numerals (the `if all`
guard fails), or the sample is empty, in which case Python's `max()` over
an empty generator raises `ValueError`, caught by the surrounding
`except`, which logs and leaves the column untouched. -/
def guessScale (sample : List (List Nat)) : Option Nat :=
  if sample.all isPlainNumeral then
    match sample with
    | [] => none
    | _ :: _ =>
      let m := (sample.map fracDigits).foldl Nat.max 0
      some (if 0 < m then m else 8)
  else none

/-- `PRICE_COLS` of `bn_downloader/converter.py` lines 15. -/
def PRICE_COLS : List (List Nat) :=
  [strL "price", strL "open", strL "high", strL "low", strL "close"]

/-- `QTY_COLS` of `bn_downloader/converter.py` lines 16-23. -/
def QTY_COLS : List (List Nat) :=
  [strL "qty", strL "quantity", strL "volume", strL "quote_asset_volume",
   strL "taker_buy_base_asset_volume", strL "taker_buy_quote_asset_volume"]

/-- The role-based scale choice of `bn_downloader/converter.py` lines
159-176: only columns named in `PRICE_COLS`/`QTY_COLS` are cast; a price
column with a price precision from the metadata snapshot uses it, a
quantity column uses the quantity precision, and otherwise the fixed
default scale 8 applies.  `none` means the column is not one of the
recognized names and no cast is attempted. -/
def roleScale (colName : List Nat) (pricePrecision qtyPrecision : Option Nat) :
    Option Nat :=
  if PRICE_COLS.contains colName || QTY_COLS.contains colName then
    if PRICE_COLS.contains colName && pricePrecision.isSome then pricePrecision
    else if QTY_COLS.contains colName && qtyPrecision.isSome then qtyPrecision
    else some 8
  else none

/-- Outcome of `verify_and_unzip` in `bn_downloader/main.py`:
`checksumMismatch` is the `ValueError` raised on line 96, `indexError`
covers `f.read().split()[0]` on an all-whitespace checksum file (line 69)
and `zip_ref.namelist()[0]` on an empty archive (line 79). -/
inductive VError
  | checksumMismatch
  | indexError
deriving DecidableEq

/-- Filesystem mutations `verify_and_unzip` can perform in the archive's
directory, in program order: `extractall`, `os.rename`, `Path.unlink`. -/
inductive FsOp
  | extractAll (entries : List (List Nat))
  | rename (src dst : List Nat)
  | unlink (path : List Nat)
deriving DecidableEq

/-- `f.read().split()[0]` on the checksum file (`bn_downloader/main.py`
line 69): first whitespace-delimited token, `none` when indexing raises. -/
def firstToken (s : List Nat) : Option (List Nat) := (pySplitWs s).head?

/-- The canonical raw file name chosen on lines 82-86 of
`bn_downloader/main.py`: with an interval, the first two hyphen-delimited
tokens of the extracted entry's name rejoined with `'-'` plus `".csv"`;
without, the archive's stem (the job symbol) plus `".csv"`. -/
def canonicalNameN (hasInterval : Bool) (extractedName symbol : List Nat) :
    List Nat :=
  if hasInterval then
    pyJoin 45 ((pySplitOnSep 45 extractedName).take 2) ++ strL ".csv"
  else symbol ++ strL ".csv"

/-- Follows the spec's words (section 4.3 step 5): "if the data type
carries an interval, the canonical name is the first two hyphen-delimited
tokens of the extracted entry's own name plus the raw extension ...
otherwise the canonical name is the archive's own base name plus the raw
extension".  Stated separately from `canonicalNameN` so the code's naming
rule can be compared against the spec's. -/
def specCanonicalName (hasInterval : Bool) (extractedEntryName archiveStem : List Nat) :
    List Nat :=
  if hasInterval then
    pyJoin 45 ((pySplitOnSep 45 extractedEntryName).take 2) ++ strL ".csv"
  else archiveStem ++ strL ".csv"

/-- Shallow embedding of `verify_and_unzip` (`bn_downloader/main.py` lines
63-99).  `symbol` is the stem of the downloaded archive
(`dest_dir / f"{symbol}.zip"`), `entries` is `zip_ref.namelist()`,
`checksumContent` the text of the checksum file, and `digest` the
lowercase hex SHA-256 digest `hashlib` computes by streaming the archive.
Returns the filesystem operations performed, in order, and the error (if
any) that escapes the function. -/
def verifyAndUnzip (symbol : List Nat) (hasInterval : Bool)
    (entries : List (List Nat)) (checksumContent digest : List Nat) :
    List FsOp × Option VError :=
  match firstToken checksumContent with
  | none => ([], some VError.indexError)
  | some expected =>
    if expected = digest then
      match entries with
      | [] => ([], some VError.indexError)
      | e0 :: rest =>
        ([FsOp.extractAll (e0 :: rest),
          FsOp.rename e0 (canonicalNameN hasInterval e0 symbol),
          FsOp.unlink (symbol ++ strL ".zip.CHECKSUM"),
          FsOp.unlink (symbol ++ strL ".zip")], none)
    else ([], some VError.checksumMismatch)

/-- Effect of one filesystem operation on a presence predicate over file
names in the archive's directory. -/
def stepPresent (present : List Nat → Bool) : FsOp → List Nat → Bool
  | FsOp.extractAll es => fun n => if n ∈ es then true else present n
  | FsOp.rename src dst => fun n =>
      if n = dst then true else if n = src then false else present n
  | FsOp.unlink m => fun n => if n = m then false else present n

/-- Which file names are present after running a list of operations. -/
def presentAfter (present : List Nat → Bool) : List FsOp → List Nat → Bool
  | [] => present
  | op :: ops => presentAfter (stepPresent present op) ops

/-- The `(source, destination)` pairs of the rename operations in a trace. -/
def renamesOf (ops : List FsOp) : List (List Nat × List Nat) :=
  ops.filterMap (fun op =>
    match op with
    | FsOp.rename s d => some (s, d)
    | _ => none)

/-- A lowercase hexadecimal string, the shape of `hashlib`'s `hexdigest()`
output. -/
def isLowerHexN (s : List Nat) : Bool :=
  s.all (fun c => (48 ≤ c && c ≤ 57) || (97 ≤ c && c ≤ 102))

/-- Shallow embedding of `snake_to_pascal` (`bn_converter/conv.py` lines
19-25).  `snake_str[0]` raises `IndexError` on the empty string, modelled
as `none`; otherwise, when the first character is lowercase the string is
split on `'_'` (code 95) and each piece capitalized, and when it is not
the string passes through unchanged. -/
def snakeToPascalN : List Nat → Option (List Nat)
  | [] => none
  | c :: cs =>
    if pyIsLowerN c then
      some (((pySplitOnSep 95 (c :: cs)).map pyCapitalize).flatten)
    else some (c :: cs)

/-- The rename-mapping comprehension
`{col: snake_to_pascal(col) for col in df.columns}` built at
`bn_converter/conv.py` lines 159 and 281: it raises (`none`) as soon as
one column name makes `snake_to_pascal` raise. -/
def mapPascal : List (List Nat) → Option (List (List Nat))
  | [] => some []
  | c :: cs =>
    match snakeToPascalN c, mapPascal cs with
    | some p, some ps => some (p :: ps)
    | _, _ => none

/-- The fixed legacy table `dict(Quantity="Qty", TransactTime="TxnTime")`
of `bn_converter/conv.py` line 291, applied to one column name. -/
def legacyRenameN (s : List Nat) : List Nat :=
  if s = strL "Quantity" then strL "Qty"
  else if s = strL "TransactTime" then strL "TxnTime"
  else s

/-- `needs_conversion` of `bn_converter/conv.py` lines 284-286: does any
column name differ from its snake-to-Pascal image? -/
def needsConversion (cols pcols : List (List Nat)) : Bool :=
  (cols.zip pcols).any (fun p => decide (p.1 ≠ p.2))

/-- Column names after the conditional Pascal rename of
`bn_converter/conv.py` lines 288-289. -/
def migrateCols1 (cols pcols : List (List Nat)) : List (List Nat) :=
  if needsConversion cols pcols then pcols else cols

/-- `needs_rename` of `bn_converter/conv.py` line 292: is a key of the
legacy table among the (possibly Pascal-renamed) column names? -/
def needsRename (cols1 : List (List Nat)) : Bool :=
  cols1.any (fun c =>
    decide (c = strL "Quantity") || decide (c = strL "TransactTime"))

/-- Column names after both renames of `bn_converter/conv.py` lines
288-295. -/
def migrateCols (cols pcols : List (List Nat)) : List (List Nat) :=
  if needsRename (migrateCols1 cols pcols) then
    (migrateCols1 cols pcols).map legacyRenameN
  else migrateCols1 cols pcols

/-- `needs_conversion or needs_rename` (`bn_converter/conv.py` line 297):
whether the file is rewritten. -/
def migrateFlag (cols pcols : List (List Nat)) : Bool :=
  needsConversion cols pcols || needsRename (migrateCols1 cols pcols)

/-- One file of the Legacy Migration Pass (`bn_converter/conv.py` lines
274-299) acting on the file's column names: build the snake-to-Pascal
mapping (raises on an empty name, caught by the per-file `except`, hence
`none`: the file is skipped and not written), rename when any name
changed, apply the legacy table when one of its keys is present, and
report in the `Bool` whether the file was rewritten
(`needs_conversion or needs_rename`). -/
def migrateOne (cols : List (List Nat)) : Option (List (List Nat) × Bool) :=
  match mapPascal cols with
  | none => none
  | some pcols => some (migrateCols cols pcols, migrateFlag cols pcols)

/-- The per-file loop of `convert` in `bn_converter/conv.py` lines
153-250: each file is processed inside its own `try`, so one failure does
not stop the others.  A file is abstracted to its path and a flag telling
whether its processing succeeds; the result is the pair
`(successfully converted files, failed_files)` in job order. -/
def convRunFiles : List (List Nat × Bool) → List (List Nat) × List (List Nat)
  | [] => ([], [])
  | (f, ok) :: rest =>
    let r := convRunFiles rest
    if ok then (f :: r.1, r.2) else (r.1, f :: r.2)

/-- The job loop of `convert` in `bn_converter/conv.py` lines 139-259:
each job is its discovered list of raw files (empty lists are skipped by
the `continue` on line 148); `total_files` accumulates the file counts and
`failed_files` the failures across all jobs.  Returns
`(total_files, failed_files)`. -/
def convConvert : List (List (List Nat × Bool)) → Nat × List (List Nat)
  | [] => (0, [])
  | job :: rest =>
    let r := convConvert rest
    if job.isEmpty then r
    else (job.length + r.1, (convRunFiles job).2 ++ r.2)

/-- Exit outcome of `convert` in `bn_converter/conv.py` lines 253-259:
`typer.Exit(code=1)` exactly when `failed_files` is nonempty. -/
def convExitSuccess (jobs : List (List (List Nat × Bool))) : Bool :=
  (convConvert jobs).2.isEmpty

/-- The per-file loop of `convert` in `bn_downloader/converter.py` lines
157-196: the files of one job are processed with no per-file `try`, so
the first failing read or write raises out of the loop.  Returns the
files completed before the failure and whether the whole job finished. -/
def dlRunFiles : List (List Nat × Bool) → List (List Nat) × Bool
  | [] => ([], true)
  | (f, ok) :: rest =>
    if ok then
      let r := dlRunFiles rest
      (f :: r.1, r.2)
    else ([], false)

/-- The job loop of `convert` in `bn_downloader/converter.py` lines
145-196: a job with no files is skipped (`continue`, line 151) before
anything else; otherwise `get_exchange_info()` is called (line 155) and
the job's files are processed; an exception reaches the single outer
`try` of lines 125-199, which logs and raises `typer.Exit(code=1)`,
abandoning all remaining jobs.  Returns
`(number of exchange-info fetches, files converted, finished without error)`. -/
def dlConvert : List (List (List Nat × Bool)) → Nat × List (List Nat) × Bool
  | [] => (0, [], true)
  | job :: rest =>
    if job.isEmpty then dlConvert rest
    else
      let r := dlRunFiles job
      if r.2 then
        let rr := dlConvert rest
        (rr.1 + 1, r.1 ++ rr.2.1, rr.2.2)
      else (1, r.1, false)

example : strL "ab" = [97, 98] := by decide
example : guessScale [strL "1.2345"] = some 4 := by decide
example : guessScale [strL "12"] = some 8 := by decide
example : guessScale [strL "abc"] = none := by decide
example : guessScale [] = none := by decide
example : roleScale (strL "price") (some 2) none = some 2 := by decide
example : roleScale (strL "x") none none = none := by decide
example : firstToken (strL "  abc def") = some (strL "abc") := by decide
example : snakeToPascalN (strL "open_time") = some (strL "OpenTime") := by decide
example : snakeToPascalN (strL "OpenTime") = some (strL "OpenTime") := by decide
example : snakeToPascalN (strL "fOO_bar") = some (strL "FooBar") := by decide
example : snakeToPascalN [] = none := by decide
example :
    migrateOne [strL "open_time", strL "quantity"] =
      some ([strL "OpenTime", strL "Qty"], true) := by decide
example :
    migrateOne [strL "OpenTime", strL "Qty"] =
      some ([strL "OpenTime", strL "Qty"], false) := by decide
example : migrateOne [strL "Quantity"] = some ([strL "Qty"], true) := by decide
example :
    convConvert [[(strL "a", false), (strL "b", true)], [], [(strL "c", false)]] =
      (3, [strL "a", strL "c"]) := by decide
example :
    dlConvert [[(strL "a", false), (strL "b", true)]] = (1, [], false) := by decide
example :
    dlConvert [[(strL "a", true)], [(strL "b", true)]] =
      (2, [strL "a", strL "b"], true) := by decide
example :
    (verifyAndUnzip (strL "B") false [strL "e.csv"] (strL "ABC x") (strL "abc")).2 =
      some VError.checksumMismatch := by decide
example :
    verifyAndUnzip (strL "B") true [strL "B-1d-2023.csv"] (strL "abc x") (strL "abc") =
      ([FsOp.extractAll [strL "B-1d-2023.csv"],
        FsOp.rename (strL "B-1d-2023.csv") (strL "B-1d.csv"),
        FsOp.unlink (strL "B.zip.CHECKSUM"),
        FsOp.unlink (strL "B.zip")], none) := by decide

/-! Helper lemmas. -/

theorem pyIsLowerN_pyToUpperN (c : Nat) : pyIsLowerN (pyToUpperN c) = false := by
  simp only [pyToUpperN, pyIsLowerN]
  split
  · rename_i h
    simp only [Bool.and_eq_true, decide_eq_true_eq] at h
    simp only [Bool.and_eq_false_iff, decide_eq_false_iff_not]
    omega
  · rename_i h
    simpa using h

theorem pySplitIf_cons_ne (p : Nat → Bool) (c : Nat) (cs : List Nat)
    (h : p c = false) :
    ∃ w ws, pySplitIf p (c :: cs) = (c :: w) :: ws := by
  cases hs : pySplitIf p cs with
  | nil => exact ⟨[], [], by simp [pySplitIf, hs, h]⟩
  | cons w ws => exact ⟨w, ws, by simp [pySplitIf, hs, h]⟩

theorem snakeToPascalN_stable {s t : List Nat} (h : snakeToPascalN s = some t) :
    snakeToPascalN t = some t := by
  cases s with
  | nil => simp [snakeToPascalN] at h
  | cons c cs =>
    by_cases hc : pyIsLowerN c = true
    · have hc95 : ¬ c = 95 := by
        simp [pyIsLowerN] at hc
        omega
      obtain ⟨w, ws, hsp⟩ :=
        pySplitIf_cons_ne (fun x => decide (x = 95)) c cs (by simp [hc95])
      have hsp' : pySplitOnSep 95 (c :: cs) = (c :: w) :: ws := hsp
      simp only [snakeToPascalN, hc, if_true] at h
      rw [hsp'] at h
      simp only [List.map_cons, pyCapitalize, List.flatten_cons, List.cons_append,
        Option.some.injEq] at h
      subst h
      simp [snakeToPascalN, pyIsLowerN_pyToUpperN]
    · have hc' : pyIsLowerN c = false := by simpa using hc
      simp [snakeToPascalN, hc'] at h
      subst h
      simp [snakeToPascalN, hc']

theorem mapPascal_stable {l : List (List Nat)}
    (h : ∀ x ∈ l, snakeToPascalN x = some x) : mapPascal l = some l := by
  induction l with
  | nil => rfl
  | cons c cs ih =>
    have hc := h c (by simp)
    have hcs := ih (fun x hx => h x (by simp [hx]))
    simp [mapPascal, hc, hcs]

theorem mapPascal_mem_stable {l l' : List (List Nat)}
    (h : mapPascal l = some l') : ∀ y ∈ l', snakeToPascalN y = some y := by
  induction l generalizing l' with
  | nil =>
    simp only [mapPascal, Option.some.injEq] at h
    subst h
    simp
  | cons c cs ih =>
    simp only [mapPascal] at h
    cases hc : snakeToPascalN c with
    | none => rw [hc] at h; simp at h
    | some p =>
      cases hcs : mapPascal cs with
      | none => rw [hc, hcs] at h; simp at h
      | some ps =>
        rw [hc, hcs] at h
        simp only [Option.some.injEq] at h
        subst h
        intro y hy
        rcases List.mem_cons.mp hy with rfl | hy'
        · exact snakeToPascalN_stable hc
        · exact ih hcs y hy'

theorem mapPascal_eq_of_nochange {l l' : List (List Nat)}
    (h : mapPascal l = some l')
    (hz : (l.zip l').any (fun p => decide (p.1 ≠ p.2)) = false) : l = l' := by
  induction l generalizing l' with
  | nil =>
    simp only [mapPascal, Option.some.injEq] at h
    exact h
  | cons c cs ih =>
    simp only [mapPascal] at h
    cases hc : snakeToPascalN c with
    | none => rw [hc] at h; simp at h
    | some p =>
      cases hcs : mapPascal cs with
      | none => rw [hc, hcs] at h; simp at h
      | some ps =>
        rw [hc, hcs] at h
        simp only [Option.some.injEq] at h
        subst h
        simp only [List.zip_cons_cons, List.any_cons, Bool.or_eq_false_iff,
          decide_eq_false_iff_not, not_not] at hz
        obtain ⟨hcp, hrest⟩ := hz
        rw [hcp, ih hcs hrest]

theorem mapPascal_none_of_mem_nil {l : List (List Nat)} (h : [] ∈ l) :
    mapPascal l = none := by
  induction l with
  | nil => simp at h
  | cons c cs ih =>
    rcases List.mem_cons.mp h with rfl | hm
    · simp [mapPascal, snakeToPascalN]
    · cases hc : snakeToPascalN c <;> simp [mapPascal, hc, ih hm]

theorem zip_self_any_ne (l : List (List Nat)) :
    (l.zip l).any (fun p => decide (p.1 ≠ p.2)) = false := by
  induction l with
  | nil => rfl
  | cons c cs ih =>
    rw [List.zip_cons_cons, List.any_cons, ih]
    simp

theorem legacyRenameN_stable {y : List Nat} (hy : snakeToPascalN y = some y) :
    snakeToPascalN (legacyRenameN y) = some (legacyRenameN y) ∧
    ¬ legacyRenameN y = strL "Quantity" ∧
    ¬ legacyRenameN y = strL "TransactTime" := by
  unfold legacyRenameN
  split
  · exact ⟨by decide, by decide, by decide⟩
  · split
    · exact ⟨by decide, by decide, by decide⟩
    · rename_i h1 h2
      exact ⟨hy, h1, h2⟩

theorem migrateCols1_stable {cols pcols : List (List Nat)}
    (hm : mapPascal cols = some pcols) :
    ∀ y ∈ migrateCols1 cols pcols, snakeToPascalN y = some y := by
  unfold migrateCols1
  split
  · exact mapPascal_mem_stable hm
  · rename_i hnc
    have : cols = pcols :=
      mapPascal_eq_of_nochange hm (by simpa [needsConversion] using hnc)
    rw [this]
    exact mapPascal_mem_stable hm

theorem migrateCols_stable {cols pcols : List (List Nat)}
    (hm : mapPascal cols = some pcols) :
    ∀ y ∈ migrateCols cols pcols,
      snakeToPascalN y = some y ∧
      ¬ y = strL "Quantity" ∧ ¬ y = strL "TransactTime" := by
  unfold migrateCols
  split
  · intro y hy
    obtain ⟨x, hx, rfl⟩ := List.mem_map.mp hy
    exact legacyRenameN_stable (migrateCols1_stable hm x hx)
  · rename_i hnr
    intro y hy
    have hnr' : needsRename (migrateCols1 cols pcols) = false := by simpa using hnr
    rw [needsRename, List.any_eq_false] at hnr'
    have hy' := hnr' y hy
    simp only [Bool.or_eq_true, decide_eq_true_eq, not_or] at hy'
    exact ⟨migrateCols1_stable hm y hy, hy'.1, hy'.2⟩

theorem migrateFlag_false_fixes {cols pcols : List (List Nat)}
    (hf : migrateFlag cols pcols = false) : migrateCols cols pcols = cols := by
  simp only [migrateFlag, Bool.or_eq_false_iff] at hf
  obtain ⟨hnc, hnr⟩ := hf
  have h1 : migrateCols1 cols pcols = cols := by simp [migrateCols1, hnc]
  unfold migrateCols
  rw [h1] at hnr ⊢
  rw [hnr]
  simp

theorem migrateOne_fixed {cols : List (List Nat)}
    (hstable : ∀ y ∈ cols, snakeToPascalN y = some y)
    (hnoQ : ∀ y ∈ cols, ¬ y = strL "Quantity")
    (hnoT : ∀ y ∈ cols, ¬ y = strL "TransactTime") :
    migrateOne cols = some (cols, false) := by
  have hmp := mapPascal_stable hstable
  have hnc : needsConversion cols cols = false := zip_self_any_ne cols
  have hnr : needsRename cols = false := by
    simp only [needsRename, List.any_eq_false]
    intro y hy
    simp [hnoQ y hy, hnoT y hy]
  have h1 : migrateCols1 cols cols = cols := by simp [migrateCols1, hnc]
  simp [migrateOne, hmp, migrateCols, migrateFlag, h1, hnc, hnr]

theorem convRunFiles_eq (fs : List (List Nat × Bool)) :
    convRunFiles fs =
      ((fs.filter (fun p => p.2)).map Prod.fst,
       (fs.filter (fun p => !p.2)).map Prod.fst) := by
  induction fs with
  | nil => rfl
  | cons p rest ih =>
    obtain ⟨f, ok⟩ := p
    cases ok <;> simp [convRunFiles, ih, List.filter_cons]

theorem convConvert_failed_mem {jobs : List (List (List Nat × Bool))}
    {job : List (List Nat × Bool)} (hj : job ∈ jobs) {p : List Nat × Bool}
    (hp : p ∈ job) (hfail : p.2 = false) : p.1 ∈ (convConvert jobs).2 := by
  induction jobs with
  | nil => simp at hj
  | cons j rest ih =>
    rcases List.mem_cons.mp hj with rfl | hj'
    · cases job with
      | nil => simp at hp
      | cons q js =>
        simp only [convConvert, List.isEmpty_cons, Bool.false_eq_true, if_false]
        apply List.mem_append_left
        rw [convRunFiles_eq]
        simp only [List.mem_map, List.mem_filter]
        exact ⟨p, ⟨hp, by simp [hfail]⟩, rfl⟩
    · cases hje : (j : List (List Nat × Bool)).isEmpty with
      | true => simpa [convConvert, hje] using ih hj'
      | false =>
        simp only [convConvert, hje, Bool.false_eq_true, if_false]
        exact List.mem_append_right _ (ih hj')

theorem convRunFiles_failed_nil_iff (job : List (List Nat × Bool)) :
    (convRunFiles job).2 = [] ↔ ∀ p ∈ job, p.2 = true := by
  rw [convRunFiles_eq]
  simp only [List.map_eq_nil_iff, List.filter_eq_nil_iff]
  constructor
  · intro h p hp
    have := h p hp
    simpa using this
  · intro h p hp
    simp [h p hp]

theorem convConvert_failed_nil_iff (jobs : List (List (List Nat × Bool))) :
    (convConvert jobs).2 = [] ↔ ∀ job ∈ jobs, ∀ p ∈ job, p.2 = true := by
  induction jobs with
  | nil => simp [convConvert]
  | cons j rest ih =>
    cases j with
    | nil => simpa [convConvert] using ih
    | cons q js =>
      simp only [convConvert, List.isEmpty_cons, Bool.false_eq_true, if_false,
        List.append_eq_nil, ih, convRunFiles_failed_nil_iff]
      constructor
      · rintro ⟨h1, h2⟩ job hjob
        rcases List.mem_cons.mp hjob with rfl | hj'
        · exact h1
        · exact h2 job hj'
      · intro h
        exact ⟨h _ (by simp), fun job hj' => h job (by simp [hj'])⟩

theorem dlRunFiles_all_ok (fs : List (List Nat × Bool))
    (h : ∀ p ∈ fs, p.2 = true) : (dlRunFiles fs).2 = true := by
  induction fs with
  | nil => rfl
  | cons p rest ih =>
    obtain ⟨f, ok⟩ := p
    have hok : ok = true := h (f, ok) (by simp)
    subst hok
    simpa [dlRunFiles] using ih (fun q hq => h q (by simp [hq]))

/-! Claims. -/

/-- C1 (counterexample): the claim says verification succeeds exactly when
the computed digest and the checksum file's first token are equal up to
letter case.  Here the checksum file carries the uppercase form of the
digest: the two tokens are equal up to case (lowercasing the token yields
the digest, a lowercase hex string), yet `verify_and_unzip` raises
`ChecksumMismatch`, because line 77 of `bn_downloader/main.py` compares
the strings with `==` and `hexdigest()` is lowercase. -/
theorem c1_case_counterexample :
    (verifyAndUnzip (strL "BTCUSDT") false [strL "BTCUSDT-trades-2023-01-01.csv"]
        (strL "2CF24DBA5FB0A30E26E83B2AC5B9E29E1B161E5C1FA7425E73043362938B9824  BTCUSDT-trades-2023-01-01.zip")
        (strL "2cf24dba5fb0a30e26e83b2ac5b9e29e1b161e5c1fa7425e73043362938b9824")).2 =
      some VError.checksumMismatch ∧
    (firstToken (strL "2CF24DBA5FB0A30E26E83B2AC5B9E29E1B161E5C1FA7425E73043362938B9824  BTCUSDT-trades-2023-01-01.zip")).map
        (List.map pyToLowerN) =
      some (strL "2cf24dba5fb0a30e26e83b2ac5b9e29e1b161e5c1fa7425e73043362938b9824") ∧
    isLowerHexN (strL "2cf24dba5fb0a30e26e83b2ac5b9e29e1b161e5c1fa7425e73043362938b9824") = true := by
  decide

/-- C1 (amended): verification compares the first whitespace-delimited
token of the checksum file against the streamed SHA-256 hex digest by
exact, case-sensitive string equality: given that the checksum file has a
first token `tok`, `verify_and_unzip` reports `ChecksumMismatch` exactly
when `tok` differs from the digest as a string. -/
theorem c1_verify_exact_match (symbol content digest tok : List Nat)
    (hasInterval : Bool) (entries : List (List Nat))
    (h : firstToken content = some tok) :
    (verifyAndUnzip symbol hasInterval entries content digest).2 =
        some VError.checksumMismatch ↔ ¬ tok = digest := by
  by_cases he : tok = digest
  · subst he
    cases entries <;> simp [verifyAndUnzip, h]
  · simp [verifyAndUnzip, h, he]

/-- C1 (witness): instance of `c1_verify_exact_match` at a concrete
mismatching pair. -/
theorem c1_verify_exact_match_witness :
    (verifyAndUnzip (strL "B") false [strL "e.csv"] (strL "ab cd") (strL "cd")).2 =
        some VError.checksumMismatch ↔ ¬ strL "ab" = strL "cd" :=
  c1_verify_exact_match (strL "B") (strL "ab cd") (strL "cd") (strL "ab") false
    [strL "e.csv"] (by decide)

/-- C2: on `ChecksumMismatch` the function performs no filesystem
operation at all — nothing is extracted, and neither the archive nor the
checksum file is unlinked, so both remain on disk; and whenever the
function succeeds, its operation trace is exactly extraction, the
canonical rename, and then the two unlinks, so deletion happens only on
the success path and only after extraction and the rename. -/
theorem c2_mismatch_no_extract_no_delete (symbol content digest tok : List Nat)
    (hasInterval : Bool) (entries : List (List Nat))
    (h : firstToken content = some tok) :
    (¬ tok = digest →
      verifyAndUnzip symbol hasInterval entries content digest =
        ([], some VError.checksumMismatch)) ∧
    ((verifyAndUnzip symbol hasInterval entries content digest).2 = none →
      ∃ e0 rest, entries = e0 :: rest ∧
        (verifyAndUnzip symbol hasInterval entries content digest).1 =
          [FsOp.extractAll entries,
           FsOp.rename e0 (canonicalNameN hasInterval e0 symbol),
           FsOp.unlink (symbol ++ strL ".zip.CHECKSUM"),
           FsOp.unlink (symbol ++ strL ".zip")]) := by
  constructor
  · intro hne
    simp [verifyAndUnzip, h, hne]
  · intro hnone
    by_cases he : tok = digest
    · subst he
      cases entries with
      | nil => simp [verifyAndUnzip, h] at hnone
      | cons e0 rest => exact ⟨e0, rest, rfl, by simp [verifyAndUnzip, h]⟩
    · simp [verifyAndUnzip, h, he] at hnone

/-- C2 (witness): instance of `c2_mismatch_no_extract_no_delete` on a
concrete mismatching download. -/
theorem c2_mismatch_no_extract_no_delete_witness :
    verifyAndUnzip (strL "B") false [strL "e.csv"] (strL "ab cd") (strL "cd") =
      ([], some VError.checksumMismatch) :=
  (c2_mismatch_no_extract_no_delete (strL "B") (strL "ab cd") (strL "cd")
      (strL "ab") false [strL "e.csv"] (by decide)).1 (by decide)

/-- C3: on the success path the only rename performed moves the first
extracted entry to the canonical name demanded by the spec — derived from
the extracted entry's own name when the data type carries an interval and
from the archive stem otherwise — and for interval-bearing types that
canonical name does not depend on the job symbol. -/
theorem c3_canonical_name (symbol content digest : List Nat)
    (hasInterval : Bool) (e0 : List Nat) (rest : List (List Nat))
    (h : firstToken content = some digest) :
    renamesOf (verifyAndUnzip symbol hasInterval (e0 :: rest) content digest).1 =
      [(e0, specCanonicalName hasInterval e0 symbol)] ∧
    (∀ symbol', specCanonicalName true e0 symbol' = specCanonicalName true e0 symbol) := by
  constructor
  · simp [verifyAndUnzip, h, renamesOf, canonicalNameN, specCanonicalName]
  · intro s'
    simp [specCanonicalName]

/-- C3 (witness): instance of `c3_canonical_name` on a kline archive whose
internal entry name disagrees with the naive `{symbol}-{interval}`
convention. -/
theorem c3_canonical_name_witness :
    renamesOf (verifyAndUnzip (strL "BTCUSDT") true
        [strL "ETHUSDT-1d-2023-01-01.csv"] (strL "ab x") (strL "ab")).1 =
      [(strL "ETHUSDT-1d-2023-01-01.csv",
        specCanonicalName true (strL "ETHUSDT-1d-2023-01-01.csv") (strL "BTCUSDT"))] ∧
    (∀ symbol', specCanonicalName true (strL "ETHUSDT-1d-2023-01-01.csv") symbol' =
      specCanonicalName true (strL "ETHUSDT-1d-2023-01-01.csv") (strL "BTCUSDT")) :=
  c3_canonical_name (strL "BTCUSDT") (strL "ab x") (strL "ab") true
    (strL "ETHUSDT-1d-2023-01-01.csv") [] (by decide)

/-- C9: with a multi-entry archive and a matching checksum, `extractall`
unpacks every listed entry, the canonical rename reads only the first
entry of the listing, only that entry is renamed, and a second entry —
distinct from the first and from the archive/checksum names — is still
present under its own name afterwards. -/
theorem c9_multi_entry (symbol content digest : List Nat) (hasInterval : Bool)
    (e0 e1 : List Nat) (rest : List (List Nat)) (present : List Nat → Bool)
    (h : firstToken content = some digest)
    (h1 : ¬ e1 = e0) (h2 : ¬ e1 = symbol ++ strL ".zip")
    (h3 : ¬ e1 = symbol ++ strL ".zip.CHECKSUM") :
    (verifyAndUnzip symbol hasInterval (e0 :: e1 :: rest) content digest).2 = none ∧
    (verifyAndUnzip symbol hasInterval (e0 :: e1 :: rest) content digest).1 =
      [FsOp.extractAll (e0 :: e1 :: rest),
       FsOp.rename e0 (canonicalNameN hasInterval e0 symbol),
       FsOp.unlink (symbol ++ strL ".zip.CHECKSUM"),
       FsOp.unlink (symbol ++ strL ".zip")] ∧
    presentAfter present
      (verifyAndUnzip symbol hasInterval (e0 :: e1 :: rest) content digest).1 e1 = true := by
  refine ⟨by simp [verifyAndUnzip, h], by simp [verifyAndUnzip, h], ?_⟩
  have hv : (verifyAndUnzip symbol hasInterval (e0 :: e1 :: rest) content digest).1 =
      [FsOp.extractAll (e0 :: e1 :: rest),
       FsOp.rename e0 (canonicalNameN hasInterval e0 symbol),
       FsOp.unlink (symbol ++ strL ".zip.CHECKSUM"),
       FsOp.unlink (symbol ++ strL ".zip")] := by
    simp [verifyAndUnzip, h]
  rw [hv]
  simp [presentAfter, stepPresent, h1, h2, h3]

/-- C9 (witness): instance of `c9_multi_entry` on a two-entry archive. -/
theorem c9_multi_entry_witness :
    (verifyAndUnzip (strL "B") false [strL "a.csv", strL "b.csv"]
        (strL "ab x") (strL "ab")).2 = none ∧
    (verifyAndUnzip (strL "B") false [strL "a.csv", strL "b.csv"]
        (strL "ab x") (strL "ab")).1 =
      [FsOp.extractAll [strL "a.csv", strL "b.csv"],
       FsOp.rename (strL "a.csv") (canonicalNameN false (strL "a.csv") (strL "B")),
       FsOp.unlink (strL "B" ++ strL ".zip.CHECKSUM"),
       FsOp.unlink (strL "B" ++ strL ".zip")] ∧
    presentAfter (fun _ => false)
      (verifyAndUnzip (strL "B") false [strL "a.csv", strL "b.csv"]
        (strL "ab x") (strL "ab")).1 (strL "b.csv") = true :=
  c9_multi_entry (strL "B") (strL "ab x") (strL "ab") false (strL "a.csv")
    (strL "b.csv") [] (fun _ => false) (by decide) (by decide) (by decide) (by decide)

/-- C4 (counterexample): the claim says a sample that is not all plain
numerals falls back to the default scale 8.  On sample `["abc"]` the
`if all(...)` guard of `bn_converter/conv.py` line 177 is false, so the
code applies no decimal cast at all (the column stays text); it does not
use the default scale. -/
theorem c4_nonnumeral_counterexample :
    guessScale [strL "abc"] ≠ some 8 ∧ guessScale [strL "abc"] = none := by
  decide

/-- C4 (amended): a price-role column with a price precision in metadata
gets that precision; an unspecified-role sampled column whose values all
parse as plain numerals gets the maximum fraction length, with default 8
when that maximum is zero; but when the sample is not all plain numerals
(or is empty, making Python's `max()` raise inside the guarded block) no
decimal cast is applied at all — the column keeps its text type; the
guessing never propagates an exception. -/
theorem c4_scale_resolution :
    roleScale (strL "price") (some 2) none = some 2 ∧
    guessScale [strL "1.2345"] = some 4 ∧
    guessScale [strL "12"] = some 8 ∧
    guessScale [] = none ∧
    (∀ sample, sample.all isPlainNumeral = false → guessScale sample = none) := by
  refine ⟨by decide, by decide, by decide, by decide, ?_⟩
  intro sample hs
  simp [guessScale, hs]

/-- C4 (witness): instance of the quantified part of `c4_scale_resolution`
at the malformed sample `["abc"]`. -/
theorem c4_scale_resolution_witness : guessScale [strL "abc"] = none :=
  c4_scale_resolution.2.2.2.2 [strL "abc"] (by decide)

/-- C5 (counterexample): the claim says the Conversion Orchestrator
attempts every discovered raw file even after a failure and records each
failed file.  In the `bn_downloader/converter.py` variant of `convert`
(lines 125-199) the whole run sits in a single `try`, so with one job
whose first file fails and whose second file would succeed, the run stops
at the first file: one fetch happened, no file was converted — in
particular the healthy second file was never attempted — no per-file
failure list exists, and the run exits non-zero. -/
theorem c5_short_circuit_counterexample :
    dlConvert [[(strL "a.csv", false), (strL "b.csv", true)]] = (1, [], false) ∧
    ¬ strL "b.csv" ∈ (dlConvert [[(strL "a.csv", false), (strL "b.csv", true)]]).2.1 := by
  decide

/-- C5 (amended): the `bn_converter/conv.py` orchestrator behaves as the
claim says — every file of every discovered job is attempted and lands in
the per-job success or failure list, every failed file is recorded in the
aggregate `failed_files`, and the run exits non-zero exactly when some
file failed; the duplicated legacy variant in
`bn_downloader/converter.py` instead aborts at the first failing file. -/
theorem c5_conv_aggregates_failures (jobs : List (List (List Nat × Bool)))
    (_hne : ¬ jobs = []) :
    (∀ job ∈ jobs, ∀ p ∈ job,
      p.1 ∈ (convRunFiles job).1 ∨ p.1 ∈ (convRunFiles job).2) ∧
    (∀ job ∈ jobs, ∀ p ∈ job, p.2 = false → p.1 ∈ (convConvert jobs).2) ∧
    (convExitSuccess jobs = false ↔ ∃ job ∈ jobs, ∃ p ∈ job, p.2 = false) := by
  refine ⟨?_, ?_, ?_⟩
  · intro job _ p hp
    rw [convRunFiles_eq]
    cases hp2 : p.2 with
    | true =>
      left
      simp only [List.mem_map, List.mem_filter]
      exact ⟨p, ⟨hp, hp2⟩, rfl⟩
    | false =>
      right
      simp only [List.mem_map, List.mem_filter]
      exact ⟨p, ⟨hp, by simp [hp2]⟩, rfl⟩
  · intro job hj p hp hfail
    exact convConvert_failed_mem hj hp hfail
  · rw [convExitSuccess]
    rw [← Bool.not_eq_true, List.isEmpty_iff]
    rw [convConvert_failed_nil_iff]
    constructor
    · intro h
      by_contra hx
      push_neg at hx
      exact h (fun job hj p hp => by
        rcases Bool.eq_false_or_eq_true p.2 with ht | hf
        · exact ht
        · exact absurd hf (hx job hj p hp))
    · rintro ⟨job, hj, p, hp, hf⟩ hall
      rw [hall job hj p hp] at hf
      cases hf

/-- C5 (witness): instance of `c5_conv_aggregates_failures` showing the
failed file of a concrete two-file job recorded in the aggregate list. -/
theorem c5_conv_aggregates_failures_witness :
    strL "b.csv" ∈ (convConvert [[(strL "a.csv", true), (strL "b.csv", false)]]).2 :=
  (c5_conv_aggregates_failures [[(strL "a.csv", true), (strL "b.csv", false)]]
      (by decide)).2.1
    [(strL "a.csv", true), (strL "b.csv", false)] (by decide)
    (strL "b.csv", false) (by decide) (by decide)

/-- C6 (counterexample): the claim says the exchange-info document is
fetched exactly once per orchestrator invocation.  A run of the
`bn_downloader/converter.py` `convert` over two jobs, each with one
healthy file, performs two fetches, one inside each iteration of the job
loop (line 155). -/
theorem c6_fetch_per_job_counterexample :
    (dlConvert [[(strL "a.csv", true)], [(strL "b.csv", true)]]).1 = 2 ∧
    ¬ (dlConvert [[(strL "a.csv", true)], [(strL "b.csv", true)]]).1 = 1 := by
  decide

/-- C6 (amended): during one invocation of the metadata-using conversion
orchestrator (`convert` of `bn_downloader/converter.py`), the bulk
exchange-info document is fetched once per (symbol, data-type) job that
has at least one raw file — the fetch sits inside the job loop — so on a
run where every file converts cleanly the number of fetches equals the
number of non-empty jobs, not one. -/
theorem c6_fetch_count (jobs : List (List (List Nat × Bool)))
    (h : ∀ job ∈ jobs, ∀ p ∈ job, p.2 = true) :
    (dlConvert jobs).1 = (jobs.filter (fun j => !j.isEmpty)).length := by
  induction jobs with
  | nil => rfl
  | cons j rest ih =>
    have hrest := ih (fun job hj p hp => h job (by simp [hj]) p hp)
    cases hje : (j : List (List Nat × Bool)).isEmpty with
    | true => simp [dlConvert, hje, List.filter_cons, hrest]
    | false =>
      have hok := dlRunFiles_all_ok j (h j (by simp))
      simp [dlConvert, hje, hok, List.filter_cons, hrest]

/-- C6 (witness): instance of `c6_fetch_count` on three jobs, one of them
empty: two fetches. -/
theorem c6_fetch_count_witness :
    (dlConvert [[(strL "a.csv", true)], [], [(strL "b.csv", true)]]).1 =
      ([[((strL "a.csv" : List Nat), true)], [], [(strL "b.csv", true)]].filter
        (fun j => !j.isEmpty)).length :=
  c6_fetch_count [[(strL "a.csv", true)], [], [(strL "b.csv", true)]] (by decide)

/-- C7: the Legacy Migration Pass is idempotent on each file's column
names: if a first run turns the names `cols` into `cols2` (rewriting the
file exactly when the flag `w` is true, i.e. when some rename changed a
name), then a second run over the result changes nothing and performs no
write; and when the first run already reported no change, the names were
left untouched. -/
theorem c7_migrate_idempotent (cols cols2 : List (List Nat)) (w : Bool)
    (h : migrateOne cols = some (cols2, w)) :
    migrateOne cols2 = some (cols2, false) ∧ (w = false → cols2 = cols) := by
  cases hm : mapPascal cols with
  | none => simp [migrateOne, hm] at h
  | some pcols =>
    rw [migrateOne, hm] at h
    simp only [Option.some.injEq, Prod.mk.injEq] at h
    obtain ⟨h1, h2⟩ := h
    subst h1
    constructor
    · have hst := migrateCols_stable hm
      exact migrateOne_fixed (fun y hy => (hst y hy).1)
        (fun y hy => (hst y hy).2.1) (fun y hy => (hst y hy).2.2)
    · intro hw
      rw [← h2] at hw
      exact migrateFlag_false_fixes hw

/-- C7 (witness): a first run that rewrote both a snake_case name and a
legacy name, and whose output is a fixed point of a second run. -/
theorem c7_migrate_idempotent_witness :
    migrateOne [strL "OpenTime", strL "Qty"] =
      some ([strL "OpenTime", strL "Qty"], false) :=
  (c7_migrate_idempotent [strL "open_time", strL "quantity"]
      [strL "OpenTime", strL "Qty"] true (by decide)).1

/-- C10: `snake_to_pascal` indexes `snake_str[0]` with no length guard, so
it raises on the empty string; hence building the rename mapping over a
column list that contains an empty name raises too, and both the
normalization step of `convert` and the migration step of `migrate` fail
for that file (per-file `except`) instead of passing the empty column
through unchanged. -/
theorem c10_empty_column_name (cols : List (List Nat)) (h : [] ∈ cols) :
    snakeToPascalN [] = none ∧ mapPascal cols = none ∧ migrateOne cols = none := by
  refine ⟨rfl, mapPascal_none_of_mem_nil h, ?_⟩
  simp [migrateOne, mapPascal_none_of_mem_nil h]

/-- C10 (witness): instance of `c10_empty_column_name` on a column list
with one empty and one ordinary name. -/
theorem c10_empty_column_name_witness :
    migrateOne [[], strL "open_time"] = none :=
  (c10_empty_column_name [[], strL "open_time"] (by decide)).2.2
